import Mathlib

/-!
Verification of the NUMA-DP memory pool core (mempool.c / mempool.h).

Shallow embedding of the NUMA-aware memory pool allocator:

* `struct mempool_node` / `struct mempool_sys` (mempool.h) become Lean
  structures; pointers are modelled as natural numbers with `0` playing the
  role of `NULL`, and the `pools` array, which the code distinguishes from
  `NULL`, becomes an `Option (List mempool_node)`.
* `size_t` values are natural numbers reduced modulo `2^64` wherever the C
  arithmetic can wrap; `int` values are `Int` with the usual twos-complement
  truncation where the code converts between `int` and `size_t`.
* The platform services the code calls (libnuma topology queries,
  `pthread_create`, `numa_alloc_onnode`, `mlock`, CPU-affinity binding) are
  an explicit `Platform` record of oracles, so `ndp_mempool_init` becomes a
  deterministic function of the platform.
* Resource effects (`numa_alloc_onnode`, `mlock`, `munlock`, `numa_free`)
  are recorded in an event trace so that leak-freedom of the all-or-nothing
  rollback can be stated.
-/

/-- Modulus of `size_t` arithmetic, namely `2^64`, on the 64-bit targets the
source is written for. -/
def size_t_mod : Nat := 2 ^ 64

/-- Twos-complement truncation of a `size_t` value to a 32-bit `int`,
as performed by `int size = sys->pool_size;` in `ndp_mempool_alloc_on_node`
(mempool.c line 232). -/
def int_of_size_t (n : Nat) : Int :=
  if n % 2 ^ 32 < 2 ^ 31 then ((n % 2 ^ 32 : Nat) : Int)
  else ((n % 2 ^ 32 : Nat) : Int) - 2 ^ 32

/-- Conversion of an `int` value to `size_t` (the usual arithmetic
conversion applied when an `int` meets a `size_t` operand): reduction
modulo `2^64`. -/
def size_t_of_int (i : Int) : Nat :=
  (i % (2 ^ 64 : Int)).toNat

/-- The `align_up` macro from mempool.h line 350:
`#define align_up(x, a) ((x + a - 1) & ~(a - 1))`, on `size_t` operands.
Bitwise complement of a 64-bit value `v` is `2^64 - 1 - v`. -/
def align_up (x a : Nat) : Nat :=
  ((x + a - 1) % size_t_mod) &&& (size_t_mod - 1 - (a - 1) % size_t_mod)

/-- Model of `struct mempool_node` (mempool.h): the pool descriptor of one NUMA node.
`base` is the region base pointer (`0` = `NULL`), `size` its capacity in
bytes, `offset` the bump cursor, `node` the NUMA node id. -/
structure mempool_node where
  base : Nat
  size : Nat
  offset : Nat
  node : Int
deriving DecidableEq, Repr

/-- Model of `struct mempool_sys` (mempool.h): the pool registry. `pools = none`
models a `NULL` pools pointer (as left by a failed or rolled-back init, or
by `mempool_system_destroy`). -/
structure mempool_sys where
  pools : Option (List mempool_node)
  num_nodes : Int
  pool_size : Nat
deriving DecidableEq, Repr

/-- The calloc-zeroed pool slot: all fields zero, `base = NULL`. -/
def zero_pool : mempool_node := { base := 0, size := 0, offset := 0, node := 0 }

/-- Oracle for the platform services `ndp_mempool_init` and its bootstrap
threads invoke.  `numa_available` and `numa_max_node` are the return values
of the corresponding libnuma calls (`numa_max_node()` returns the *highest
node number* available, numa(3)); `numa_node_size0` is the value stored in
the `int nsize` from `numa_node_size(0, &nfree)` (`-1` on failure);
`calloc_pools_ok` is whether `calloc` for `sys->pools` succeeds;
`spawn_ok node` is whether `pthread_create` for that node succeeds;
`bind_ok`, `alloc_addr` (`0` = `NULL`) and `mlock_ok` are the outcomes of
`ndp_bind_thread_to_node`, `numa_alloc_onnode` and `mlock` inside the
bootstrap thread of that node. -/
structure Platform where
  numa_available : Int
  numa_max_node : Int
  numa_node_size0 : Int
  calloc_pools_ok : Bool
  spawn_ok : Nat → Bool
  bind_ok : Nat → Bool
  alloc_addr : Nat → Nat
  mlock_ok : Nat → Bool

/-- The number of NUMA nodes the platform reports.  In libnuma,
`numa_max_node()` returns the highest node number, so a (dense) platform
with `N` nodes reports highest node `N - 1`. -/
def topology_node_count (p : Platform) : Int :=
  p.numa_max_node + 1

/-- Resource events emitted by bootstrap, rollback and teardown:
`numa_alloc_onnode`, `mlock`, `munlock`, `numa_free`, each with the
region address and the byte count passed to the call. -/
inductive Ev where
  | allocEv (addr : Nat) (size : Nat)
  | mlockEv (addr : Nat) (size : Nat)
  | munlockEv (addr : Nat) (size : Nat)
  | freeEv (addr : Nat) (size : Nat)
deriving DecidableEq, Repr

/-- Model of `ndp_node_init_thread` (mempool.c lines 128-158), the per-node
bootstrap body, as a function of the platform oracles: bind affinity,
allocate on the node, `mlock`, warm pages (no observable effect here),
then publish the descriptor.  Returns `none` exactly when the thread
exits with `-1`; in that case the caller pool slot keeps its
calloc-zeroed contents.  (The source writes `t_args[node].size =
&sys->pool_size`; the field is a `size_t`, so the value of
`sys->pool_size` is what reaches the thread, which is how `size` is
passed here.) -/
def ndp_node_init_thread (p : Platform) (node : Nat) (size : Nat) :
    Option mempool_node :=
  if ¬ p.bind_ok node then none
  else if p.alloc_addr node = 0 then none
  else if ¬ p.mlock_ok node then none
  else some { base := p.alloc_addr node, size := size, offset := 0,
              node := (node : Int) }

/-- Resource events of the bootstrap of node `node`: nothing if the thread was
never spawned or failed before allocating; `alloc` then `free` if `mlock`
failed (mempool.c line 140 releases the fresh region); `alloc` then
`mlock` on success. -/
def thread_events (p : Platform) (size : Nat) (node : Nat) : List Ev :=
  if ¬ p.spawn_ok node then []
  else if ¬ p.bind_ok node then []
  else if p.alloc_addr node = 0 then []
  else if ¬ p.mlock_ok node then
    [.allocEv (p.alloc_addr node) size, .freeEv (p.alloc_addr node) size]
  else [.allocEv (p.alloc_addr node) size, .mlockEv (p.alloc_addr node) size]

/-- The pool slot for `node` after the join loop: the descriptor the
thread published on success, otherwise the calloc-zeroed slot (the slot
is also untouched when `pthread_create` failed and the thread never ran,
mempool.c lines 187-197). -/
def pool_after (p : Platform) (size : Nat) (node : Nat) : mempool_node :=
  if p.spawn_ok node then (ndp_node_init_thread p node size).getD zero_pool
  else zero_pool

/-- The value read out of `retval` for `node` in the join loop
(mempool.c lines 201-207).  `retval` is initialised to `NULL`; when
`pthread_create` failed, `pthread_join` is called on the calloc-zeroed
`pthread_t`, fails (`ESRCH`), leaves `retval` untouched, and the node is
read as `0` (success).  A spawned thread reports `0`/`-1` as it exited. -/
def join_retval (p : Platform) (size : Nat) (node : Nat) : Int :=
  if p.spawn_ok node then
    (if (ndp_node_init_thread p node size).isSome then 0 else -1)
  else 0

/-- Rollback events for `node` (mempool.c lines 213-218): if the slot
base pointer is non-`NULL`, `munlock(base, sys->pool_size)` then
`numa_free(base, pools[node].size)`. -/
def rollback_node (p : Platform) (size : Nat) (node : Nat) : List Ev :=
  let pl := pool_after p size node
  if pl.base = 0 then []
  else [.munlockEv pl.base size, .freeEv pl.base pl.size]

/-- Concatenated bootstrap-thread events of nodes `0, …, n-1`. -/
def all_thread_events (p : Platform) (size : Nat) : Nat → List Ev
  | 0 => []
  | n + 1 => all_thread_events p size n ++ thread_events p size n

/-- Concatenated rollback events of nodes `0, …, n-1`. -/
def all_rollback_events (p : Platform) (size : Nat) : Nat → List Ev
  | 0 => []
  | n + 1 => all_rollback_events p size n ++ rollback_node p size n

/-- Model of `ndp_mempool_init` (mempool.c lines 161-225).  Takes the caller
(uninitialised) `struct mempool_sys` and returns the `int` result, the
final contents of `*sys`, and the resource-event trace.  Mirrors the
source line by line: fail fast if `numa_available() < 0` or
`numa_node_size(0, &nfree) == -1`; store `numa_max_node()` into
`num_nodes` and `nsize` into `pool_size`; calloc the pools array (the
source sizes it with `sizeof(sys->pool_size)`, a layout bug with no
shallow-embedding counterpart — the array is modelled as `num_nodes`
zeroed slots); spawn one bootstrap thread per node, `continue`-ing past
spawn failures; join all slots and aggregate `ok`; on any failure,
roll back every slot with a non-`NULL` base, free the array, zero
`num_nodes` and return `-1` (`pool_size` is *not* reset on this path);
otherwise return `0`. -/
def ndp_mempool_init (p : Platform) (sys : mempool_sys) :
    Int × mempool_sys × List Ev :=
  if p.numa_available < 0 then (-1, sys, [])
  else if p.numa_node_size0 = -1 then (-1, sys, [])
  else
    let nnodes : Int := p.numa_max_node
    let psize : Nat := size_t_of_int p.numa_node_size0
    if ¬ p.calloc_pools_ok then
      (-1, { pools := none, num_nodes := nnodes, pool_size := psize }, [])
    else
      let n : Nat := nnodes.toNat
      let tevs := all_thread_events p psize n
      let ok : Int :=
        if (List.range n).all (fun node => join_retval p psize node == 0)
        then 0 else -1
      if ok ≠ 0 then
        (-1, { pools := none, num_nodes := 0, pool_size := psize },
          tevs ++ all_rollback_events p psize n)
      else
        (0, { pools := some ((List.range n).map (pool_after p psize)),
              num_nodes := nnodes, pool_size := psize }, tevs)

/-- Model of `ndp_mempool_alloc_on_node` (mempool.c lines 227-243).  Returns the
allocated pointer (`none` = `NULL`) and the registry afterwards.  Note
the source takes *no requested size*: it sets `int size =
sys->pool_size;` and advances the cursor by that amount.  `align ? align
: 1` guards a zero alignment; the aligned cursor is `align_up(p->offset,
a)`; the bounds check and the cursor update both compute `off + size` in
`size_t` arithmetic after converting the `int` back to `size_t`. -/
def ndp_mempool_alloc_on_node (sys : mempool_sys) (node : Int)
    (align : Nat) : Option Nat × mempool_sys :=
  if node < 0 ∨ sys.num_nodes ≤ node then (none, sys)
  else
    let size : Int := int_of_size_t sys.pool_size
    let ps : List mempool_node := sys.pools.getD []
    let pl : mempool_node := ps.getD node.toNat zero_pool
    let a : Nat := if align = 0 then 1 else align
    let off : Nat := align_up pl.offset a
    if pl.size < (off + size_t_of_int size) % size_t_mod then (none, sys)
    else
      (some (pl.base + off),
        { sys with
            pools := some (ps.set node.toNat
              { pl with offset := (off + size_t_of_int size) % size_t_mod }) })

/-- Teardown events (mempool.c lines 250-255): for each of the first `n`
slots with a non-`NULL` base, `munlock(base, size)` then
`numa_free(base, size)`, both with that slot `size` field. -/
def destroy_events (ps : List mempool_node) : Nat → List Ev
  | 0 => []
  | n + 1 =>
    destroy_events ps n ++
      (let pl := ps.getD n zero_pool
       if pl.base = 0 then [] else [.munlockEv pl.base pl.size, .freeEv pl.base pl.size])

/-- Model of `mempool_system_destroy` (mempool.c lines 245-260): a no-op when
`sys->pools` is `NULL`; otherwise releases every live region, frees the
array and zeroes `num_nodes` and `pool_size`.  Returns the registry
afterwards and the emitted resource events. -/
def mempool_system_destroy (sys : mempool_sys) : mempool_sys × List Ev :=
  match sys.pools with
  | none => (sys, [])
  | some ps =>
      ({ pools := none, num_nodes := 0, pool_size := 0 },
        destroy_events ps sys.num_nodes.toNat)

theorem land_high (y k n : Nat) (hk : k ≤ n) (hy : y < 2 ^ n) :
    y &&& (2 ^ n - 2 ^ k) = 2 ^ k * (y / 2 ^ k) := by
  have hmask : 2 ^ n - 2 ^ k = 2 ^ k * (2 ^ (n - k) - 1) := by
    have h1 : 2 ^ k * 2 ^ (n - k) = 2 ^ n := by
      rw [← pow_add]
      congr 1
      omega
    have h2 : (1 : Nat) ≤ 2 ^ (n - k) := Nat.one_le_two_pow
    have h3 : 2 ^ k * (2 ^ (n - k) - 1) + 2 ^ k * 1 = 2 ^ k * 2 ^ (n - k) := by
      rw [← Nat.mul_add]
      congr 1
      omega
    omega
  apply Nat.eq_of_testBit_eq
  intro i
  rw [Nat.testBit_and, hmask, Nat.testBit_mul_pow_two, Nat.testBit_mul_pow_two,
    ← Nat.shiftRight_eq_div_pow, Nat.testBit_shiftRight,
    Nat.testBit_two_pow_sub_one]
  by_cases hik : k ≤ i
  · have hki : k + (i - k) = i := by omega
    rw [hki]
    by_cases hin : i < n
    · simp [ge_iff_le, hik, show i - k < n - k by omega, Bool.and_comm]
    · have hfb : y.testBit i = false :=
        Nat.testBit_lt_two_pow
          (lt_of_lt_of_le hy (Nat.pow_le_pow_right (by norm_num) (by omega)))
      simp [hfb]
  · simp [ge_iff_le, hik]

theorem align_up_pow2 (x k : Nat) (hk : k ≤ 64) (hx : x + 2 ^ k ≤ 2 ^ 64) :
    align_up x (2 ^ k) = 2 ^ k * ((x + 2 ^ k - 1) / 2 ^ k) := by
  have ha1 : 1 ≤ 2 ^ k := Nat.one_le_two_pow
  have hy : x + 2 ^ k - 1 < 2 ^ 64 := by omega
  have hle : 2 ^ k ≤ 2 ^ 64 := Nat.pow_le_pow_right (by norm_num) hk
  have hak : 2 ^ k - 1 < 2 ^ 64 := by omega
  unfold align_up size_t_mod
  rw [Nat.mod_eq_of_lt hy, Nat.mod_eq_of_lt hak,
    show 2 ^ 64 - 1 - (2 ^ k - 1) = 2 ^ 64 - 2 ^ k by omega,
    land_high _ k 64 hk hy]

/-- Characterization of `align_up` at a power-of-two alignment, absent
`size_t` overflow: the result is the least multiple of the alignment that
is at least `x`. -/
theorem align_up_pow2_spec (x k : Nat) (hk : k ≤ 64) (hx : x + 2 ^ k ≤ 2 ^ 64) :
    align_up x (2 ^ k) % 2 ^ k = 0 ∧ x ≤ align_up x (2 ^ k) ∧
      ∀ z, x ≤ z → z % 2 ^ k = 0 → align_up x (2 ^ k) ≤ z := by
  have ha1 : 1 ≤ 2 ^ k := Nat.one_le_two_pow
  rw [align_up_pow2 x k hk hx]
  refine ⟨Nat.mul_mod_right _ _, ?_, ?_⟩
  · have hdm := Nat.div_add_mod (x + 2 ^ k - 1) (2 ^ k)
    have hmlt : (x + 2 ^ k - 1) % 2 ^ k < 2 ^ k :=
      Nat.mod_lt _ (Nat.two_pow_pos k)
    omega
  · intro z hxz hz
    have hq : z = 2 ^ k * (z / 2 ^ k) := by
      have := Nat.div_add_mod z (2 ^ k)
      omega
    have h1 : x + 2 ^ k - 1 ≤ 2 ^ k * (z / 2 ^ k) + (2 ^ k - 1) := by omega
    have h2 : (x + 2 ^ k - 1) / 2 ^ k ≤ (2 ^ k * (z / 2 ^ k) + (2 ^ k - 1)) / 2 ^ k :=
      Nat.div_le_div_right h1
    rw [Nat.mul_add_div (Nat.two_pow_pos k),
      Nat.div_eq_of_lt (by omega : 2 ^ k - 1 < 2 ^ k), Nat.add_zero] at h2
    calc 2 ^ k * ((x + 2 ^ k - 1) / 2 ^ k)
        ≤ 2 ^ k * (z / 2 ^ k) := Nat.mul_le_mul_left _ h2
      _ = z := hq.symm

/-- Twos-complement round trip: a `size_t` value below `2^31` survives the
`int` truncation and the conversion back to `size_t` unchanged. -/
theorem size_t_int_round (n : Nat) (h : n < 2 ^ 31) :
    size_t_of_int (int_of_size_t n) = n := by
  unfold int_of_size_t size_t_of_int
  have h32 : n % 2 ^ 32 = n := Nat.mod_eq_of_lt (by omega)
  rw [h32, if_pos h]
  rw [Int.emod_eq_of_lt (by positivity)
    (by exact_mod_cast (by omega : n < 2 ^ 64))]
  exact Int.toNat_natCast n

theorem getD_set_self {α : Type} (l : List α) (n : Nat) (a d : α)
    (h : n < l.length) : (l.set n a).getD n d = a := by
  induction l generalizing n with
  | nil => simp at h
  | cons x xs ih =>
    cases n with
    | zero => rfl
    | succ m =>
      simp only [List.set, List.getD, List.getElem?_cons_succ]
      have := ih m (by simpa using h)
      simpa [List.getD] using this

theorem getD_set_ne {α : Type} (l : List α) (n m : Nat) (a d : α)
    (h : n ≠ m) : (l.set n a).getD m d = l.getD m d := by
  induction l generalizing n m with
  | nil => simp
  | cons x xs ih =>
    cases n with
    | zero =>
      cases m with
      | zero => exact absurd rfl h
      | succ j => simp [List.getD]
    | succ i =>
      cases m with
      | zero => simp [List.getD]
      | succ j =>
        simp only [List.set, List.getD, List.getElem?_cons_succ]
        have := ih i j (by omega)
        simpa [List.getD] using this

theorem getD_set_oob {α : Type} (l : List α) (n : Nat) (a : α)
    (h : l.length ≤ n) : l.set n a = l := by
  exact List.set_eq_of_length_le h

/-- Per-node resource accounting: within one node, the bootstrap-thread
events and the rollback events match every `numa_alloc_onnode` with a
`numa_free` and every successful `mlock` with a `munlock`. -/
theorem node_balanced (p : Platform) (size : Nat) (node : Nat) (a s : Nat) :
    (thread_events p size node).count (Ev.allocEv a s) =
        (thread_events p size node).count (Ev.freeEv a s) +
          (rollback_node p size node).count (Ev.freeEv a s) ∧
      (thread_events p size node).count (Ev.mlockEv a s) =
        (rollback_node p size node).count (Ev.munlockEv a s) ∧
      (rollback_node p size node).count (Ev.allocEv a s) = 0 ∧
      (rollback_node p size node).count (Ev.mlockEv a s) = 0 ∧
      (thread_events p size node).count (Ev.munlockEv a s) = 0 := by
  unfold thread_events rollback_node pool_after ndp_node_init_thread zero_pool
  by_cases hsp : p.spawn_ok node <;>
    by_cases hb : p.bind_ok node <;>
      by_cases ha : p.alloc_addr node = 0 <;>
        by_cases hm : p.mlock_ok node <;>
          simp [hsp, hb, ha, hm, List.count_cons, List.count_nil]

/-- Resource accounting over the first `n` nodes: concatenating all
bootstrap-thread events with all rollback events yields a trace in which
allocations and frees, and locks and unlocks, balance exactly. -/
theorem all_balanced (p : Platform) (size : Nat) :
    ∀ (n : Nat) (a s : Nat),
      (all_thread_events p size n ++ all_rollback_events p size n).count
          (Ev.allocEv a s) =
        (all_thread_events p size n ++ all_rollback_events p size n).count
          (Ev.freeEv a s) ∧
      (all_thread_events p size n ++ all_rollback_events p size n).count
          (Ev.mlockEv a s) =
        (all_thread_events p size n ++ all_rollback_events p size n).count
          (Ev.munlockEv a s) := by
  intro n
  induction n with
  | zero => intro a s; simp [all_thread_events, all_rollback_events]
  | succ m ih =>
    intro a s
    have h1 := node_balanced p size m a s
    have h2 := ih a s
    simp only [all_thread_events, all_rollback_events, List.count_append] at *
    omega

/-- Registry fixture matching the concrete scenario of the spec: one live
pool for node 0, a 1048576-byte region at address 4096, cursor 0, and the
registry per-node size equal to that capacity. -/
def sys_scenario : mempool_sys :=
  { pools := some [{ base := 4096, size := 1048576, offset := 0, node := 0 }],
    num_nodes := 1, pool_size := 1048576 }

/-- C1: refuted by the code.  The source allocator takes no requested
size and advances the cursor by the whole per-node pool size (`int size =
sys->pool_size;`).  On the spec scenario (empty node-0 pool of capacity
1048576), the first 64-byte-aligned allocation does return offset 0, but
the cursor jumps to 1048576 rather than to `aligned_offset + 64`, and the
second allocation returns `NULL` instead of offset 64. -/
theorem alloc_advances_by_pool_size :
    (ndp_mempool_alloc_on_node sys_scenario 0 64).1 = some 4096 ∧
      (((ndp_mempool_alloc_on_node sys_scenario 0 64).2.pools.getD []).getD 0
          zero_pool).offset = 1048576 ∧
      (ndp_mempool_alloc_on_node
          (ndp_mempool_alloc_on_node sys_scenario 0 64).2 0 64).1 = none := by
  decide

/-- Registry fixture whose single pool (capacity 1000) is smaller than the
registry per-node size, so every allocation attempt overruns capacity. -/
def sys_small : mempool_sys :=
  { pools := some [{ base := 4096, size := 1000, offset := 0, node := 0 }],
    num_nodes := 1, pool_size := 1048576 }

/-- C5: the exhaustion path does return `NULL` and leaves the cursor
unchanged, but the promised recovery — a subsequent allocation of the
exact remaining size succeeding — is impossible in the code: the
allocator accepts no size and always consumes `sys->pool_size` bytes, so
on a pool with 1000 bytes remaining every subsequent allocation fails
too (shown here at alignments 1 and 64). -/
theorem alloc_exhausted_no_recovery :
    ndp_mempool_alloc_on_node sys_small 0 1 = (none, sys_small) ∧
      ndp_mempool_alloc_on_node sys_small 0 64 = (none, sys_small) := by
  decide

/-- An uninitialised caller registry handed to `ndp_mempool_init`. -/
def sys_uninit : mempool_sys := { pools := none, num_nodes := 0, pool_size := 0 }

/-- Platform with two dense NUMA nodes (highest node number 1) on which
`pthread_create` fails for every node while every other service works. -/
def platform_spawnfail : Platform :=
  { numa_available := 0, numa_max_node := 1, numa_node_size0 := 1048576,
    calloc_pools_ok := true, spawn_ok := fun _ => false,
    bind_ok := fun _ => true, alloc_addr := fun _ => 4096,
    mlock_ok := fun _ => true }

/-- C3: refuted by the code.  When `pthread_create` for node 0 fails, the
loop `continue`s, the join loop reads the untouched `retval = NULL` slot
as success, and `ndp_mempool_init` returns 0 with a calloc-zeroed
(`base = NULL`) pool — the spawn failure is silently skipped, not
recorded as a failed node. -/
theorem init_spawn_failure_silently_skipped :
    (ndp_mempool_init platform_spawnfail sys_uninit).1 = 0 ∧
      (ndp_mempool_init platform_spawnfail sys_uninit).2.1 =
        { pools := some [zero_pool], num_nodes := 1, pool_size := 1048576 } := by
  decide

/-- Platform with two dense NUMA nodes (highest node number 1) on which
every bootstrap service succeeds. -/
def platform_dense2 : Platform :=
  { numa_available := 0, numa_max_node := 1, numa_node_size0 := 1048576,
    calloc_pools_ok := true, spawn_ok := fun _ => true,
    bind_ok := fun _ => true, alloc_addr := fun node => 4096 * (node + 1),
    mlock_ok := fun _ => true }

/-- C4: refuted by the code.  On a dense two-node platform where every
bootstrap succeeds, `ndp_mempool_init` succeeds but stores
`numa_max_node()` — the highest node number, 1 — into `num_nodes`, one
less than the two nodes the topology reports. -/
theorem init_node_count_off_by_one :
    (ndp_mempool_init platform_dense2 sys_uninit).1 = 0 ∧
      topology_node_count platform_dense2 = 2 ∧
      (ndp_mempool_init platform_dense2 sys_uninit).2.1.num_nodes = 1 := by
  decide

/-- C7: an out-of-range node id — negative or at least `num_nodes` —
makes `ndp_mempool_alloc_on_node` return `NULL` with the registry, and
hence every pool, exactly unchanged. -/
theorem alloc_invalid_node (sys : mempool_sys) (node : Int) (align : Nat)
    (h : node < 0 ∨ sys.num_nodes ≤ node) :
    ndp_mempool_alloc_on_node sys node align = (none, sys) := by
  unfold ndp_mempool_alloc_on_node
  rw [if_pos h]

/-- Registry fixture with two live pools. -/
def sys_two : mempool_sys :=
  { pools := some [{ base := 4096, size := 1024, offset := 0, node := 0 },
                   { base := 8192, size := 1024, offset := 0, node := 1 }],
    num_nodes := 2, pool_size := 1024 }

/-- Witness for C7: allocation on node 5 against a two-node registry
returns `NULL` and leaves the registry unchanged. -/
theorem alloc_invalid_node_witness :
    ((5 : Int) < 0 ∨ sys_two.num_nodes ≤ (5 : Int)) ∧
      ndp_mempool_alloc_on_node sys_two 5 64 = (none, sys_two) :=
  ⟨by decide, alloc_invalid_node sys_two 5 64 (by decide)⟩

/-- C10: calling the allocator with alignment 0 is not an error: the
guard `align ? align : 1` replaces it by 1, so the call behaves exactly
as an alignment-1 allocation (no rounding of the offset at all). -/
theorem alloc_align_zero_as_align_one (sys : mempool_sys) (node : Int) :
    ndp_mempool_alloc_on_node sys node 0 = ndp_mempool_alloc_on_node sys node 1 :=
  rfl

/-- C9: teardown is idempotent.  For any registry, running
`mempool_system_destroy` twice performs, the second time, no resource
release at all and returns the first result unchanged; and whenever the
pools array is live, one destroy already leaves the empty registry
(`pools = NULL`, `num_nodes = 0`, `pool_size = 0`). -/
theorem destroy_idempotent :
    (∀ sys : mempool_sys,
        mempool_system_destroy (mempool_system_destroy sys).1 =
          ((mempool_system_destroy sys).1, [])) ∧
      ∀ (sys : mempool_sys) (ps : List mempool_node), sys.pools = some ps →
        (mempool_system_destroy sys).1 =
          { pools := none, num_nodes := 0, pool_size := 0 } := by
  constructor
  · intro sys
    cases h : sys.pools with
    | none => simp [mempool_system_destroy, h]
    | some ps => simp [mempool_system_destroy, h]
  · intro sys ps h
    simp [mempool_system_destroy, h]

/-- Witness for C9: destroying a registry with one live pool yields the
empty registry. -/
theorem destroy_idempotent_witness :
    sys_scenario.pools =
        some [{ base := 4096, size := 1048576, offset := 0, node := 0 }] ∧
      (mempool_system_destroy sys_scenario).1 =
        { pools := none, num_nodes := 0, pool_size := 0 } :=
  ⟨rfl, destroy_idempotent.2 sys_scenario _ rfl⟩

/-- C2: all-or-nothing initialisation.  If any spawned bootstrap task
fails (node `k` here), `ndp_mempool_init` returns `-1`, discards the
pools array (`pools = NULL`, `num_nodes = 0`) so no registry is
observable, and the resource trace is balanced: every node-local
allocation has a matching `numa_free` and every `mlock` a matching
`munlock`, so the NodePools that succeeded were unpinned and released. -/
theorem init_all_or_nothing (p : Platform) (sys : mempool_sys) (k : Nat)
    (h0 : ¬ p.numa_available < 0) (h1 : p.numa_node_size0 ≠ -1)
    (h2 : p.calloc_pools_ok = true)
    (hk : (k : Int) < p.numa_max_node)
    (hspawn : p.spawn_ok k = true)
    (hfail : ndp_node_init_thread p k (size_t_of_int p.numa_node_size0) = none) :
    (ndp_mempool_init p sys).1 = -1 ∧
      (ndp_mempool_init p sys).2.1.pools = none ∧
      (ndp_mempool_init p sys).2.1.num_nodes = 0 ∧
      (∀ a s, ((ndp_mempool_init p sys).2.2).count (Ev.allocEv a s) =
        ((ndp_mempool_init p sys).2.2).count (Ev.freeEv a s)) ∧
      (∀ a s, ((ndp_mempool_init p sys).2.2).count (Ev.mlockEv a s) =
        ((ndp_mempool_init p sys).2.2).count (Ev.munlockEv a s)) := by
  have hkn : k < p.numa_max_node.toNat := by omega
  have hjr : join_retval p (size_t_of_int p.numa_node_size0) k = -1 := by
    unfold join_retval
    rw [if_pos hspawn, hfail]
    rfl
  have hall : ((List.range p.numa_max_node.toNat).all
      (fun node =>
        join_retval p (size_t_of_int p.numa_node_size0) node == 0)) = false := by
    exact List.all_eq_false.mpr ⟨k, List.mem_range.mpr hkn, by simp [hjr]⟩
  have hres : ndp_mempool_init p sys =
      (-1, { pools := none, num_nodes := 0,
             pool_size := size_t_of_int p.numa_node_size0 },
        all_thread_events p (size_t_of_int p.numa_node_size0)
            p.numa_max_node.toNat ++
          all_rollback_events p (size_t_of_int p.numa_node_size0)
            p.numa_max_node.toNat) := by
    unfold ndp_mempool_init
    rw [if_neg h0, if_neg h1, if_neg (by simp [h2])]
    simp only [hall]
    norm_num
  rw [hres]
  exact ⟨rfl, rfl, rfl, fun a s => (all_balanced p _ _ a s).1,
    fun a s => (all_balanced p _ _ a s).2⟩

/-- Platform with three dense NUMA nodes (highest node number 2) on which
the bootstrap of node 0 succeeds but affinity binding fails on every
other node, so the node-1 bootstrap task fails after being spawned. -/
def platform_mixed : Platform :=
  { numa_available := 0, numa_max_node := 2, numa_node_size0 := 1048576,
    calloc_pools_ok := true, spawn_ok := fun _ => true,
    bind_ok := fun node => node == 0, alloc_addr := fun _ => 4096,
    mlock_ok := fun _ => true }

/-- Witness for C2, at `platform_mixed` with failing node 1. -/
theorem init_all_or_nothing_witness :
    ((¬ platform_mixed.numa_available < 0) ∧
        platform_mixed.numa_node_size0 ≠ -1 ∧
        platform_mixed.calloc_pools_ok = true ∧
        (((1 : Nat) : Int) < platform_mixed.numa_max_node) ∧
        platform_mixed.spawn_ok 1 = true ∧
        ndp_node_init_thread platform_mixed 1
          (size_t_of_int platform_mixed.numa_node_size0) = none) ∧
      ((ndp_mempool_init platform_mixed sys_uninit).1 = -1 ∧
        (ndp_mempool_init platform_mixed sys_uninit).2.1.pools = none ∧
        (ndp_mempool_init platform_mixed sys_uninit).2.1.num_nodes = 0 ∧
        (∀ a s,
          ((ndp_mempool_init platform_mixed sys_uninit).2.2).count
              (Ev.allocEv a s) =
            ((ndp_mempool_init platform_mixed sys_uninit).2.2).count
              (Ev.freeEv a s)) ∧
        (∀ a s,
          ((ndp_mempool_init platform_mixed sys_uninit).2.2).count
              (Ev.mlockEv a s) =
            ((ndp_mempool_init platform_mixed sys_uninit).2.2).count
              (Ev.munlockEv a s))) :=
  ⟨⟨by decide, by decide, by decide, by decide, by decide, by decide⟩,
    init_all_or_nothing platform_mixed sys_uninit 1 (by decide) (by decide)
      (by decide) (by decide) (by decide) (by decide)⟩

/-- C6: on a successful allocation with a power-of-two alignment (absent
`size_t` overflow of the cursor rounding), the returned pointer lies at
an offset within the region that is the smallest multiple of the
alignment at least the current cursor; in particular that offset is
divisible by the alignment. -/
theorem alloc_offset_smallest_aligned (sys : mempool_sys) (node : Int)
    (k : Nat) (ptr : Nat) (sys' : mempool_sys)
    (hk : k ≤ 64)
    (hov : ((sys.pools.getD []).getD node.toNat zero_pool).offset + 2 ^ k ≤
      2 ^ 64)
    (hsucc : ndp_mempool_alloc_on_node sys node (2 ^ k) = (some ptr, sys')) :
    ∃ off,
      ptr = ((sys.pools.getD []).getD node.toNat zero_pool).base + off ∧
        off % 2 ^ k = 0 ∧
        ((sys.pools.getD []).getD node.toNat zero_pool).offset ≤ off ∧
        ∀ z, ((sys.pools.getD []).getD node.toNat zero_pool).offset ≤ z →
          z % 2 ^ k = 0 → off ≤ z := by
  have hpow : (2 ^ k : Nat) ≠ 0 := (Nat.two_pow_pos k).ne'
  simp only [ndp_mempool_alloc_on_node] at hsucc
  rw [if_neg hpow] at hsucc
  obtain ⟨hmod, hle, hmin⟩ :=
    align_up_pow2_spec ((sys.pools.getD []).getD node.toNat zero_pool).offset
      k hk hov
  split at hsucc
  · simp at hsucc
  · split at hsucc
    · simp at hsucc
    · simp only [Prod.mk.injEq, Option.some.injEq] at hsucc
      exact ⟨align_up ((sys.pools.getD []).getD node.toNat zero_pool).offset
          (2 ^ k), hsucc.1.symm, hmod, hle, hmin⟩

/-- Registry fixture with one pool whose cursor is 10, used to exercise
the rounding of the cursor to the next alignment boundary. -/
def sys_cursor : mempool_sys :=
  { pools := some [{ base := 4096, size := 1000, offset := 10, node := 0 }],
    num_nodes := 1, pool_size := 100 }

/-- Witness for C6: allocating with alignment `64 = 2^6` from a pool with
cursor 10 returns the pointer at offset 64, the least 64-aligned offset
at or above 10. -/
theorem alloc_offset_smallest_aligned_witness :
    ((6 : Nat) ≤ 64 ∧
        ((sys_cursor.pools.getD []).getD (0 : Int).toNat zero_pool).offset +
            2 ^ 6 ≤ 2 ^ 64 ∧
        ndp_mempool_alloc_on_node sys_cursor 0 (2 ^ 6) =
          (some 4160,
            { pools := some [{ base := 4096, size := 1000, offset := 164,
                               node := 0 }],
              num_nodes := 1, pool_size := 100 })) ∧
      ∃ off,
        4160 = ((sys_cursor.pools.getD []).getD (0 : Int).toNat zero_pool).base
            + off ∧
          off % 2 ^ 6 = 0 ∧
          ((sys_cursor.pools.getD []).getD (0 : Int).toNat zero_pool).offset ≤
            off ∧
          ∀ z,
            ((sys_cursor.pools.getD []).getD (0 : Int).toNat zero_pool).offset
              ≤ z → z % 2 ^ 6 = 0 → off ≤ z :=
  ⟨⟨by decide, by decide, by decide⟩,
    alloc_offset_smallest_aligned sys_cursor 0 6 4160
      { pools := some [{ base := 4096, size := 1000, offset := 164,
                         node := 0 }],
        num_nodes := 1, pool_size := 100 }
      (by decide) (by decide) (by decide)⟩

/-- C8: the cursor invariant.  A pool descriptor published by the
bootstrap thread has cursor 0, within capacity; allocation preserves
`cursor ≤ capacity` for every pool of the registry; and under the spec
precondition on allocation (power-of-two alignment, no `size_t`
overflow) no allocation, successful or failed, ever moves any pool
cursor backwards. -/
theorem pool_cursor_invariant :
    (∀ (p : Platform) (node size : Nat) (pl : mempool_node),
        ndp_node_init_thread p node size = some pl →
          pl.offset = 0 ∧ pl.offset ≤ pl.size) ∧
      (∀ (sys : mempool_sys) (node : Int) (align : Nat) (r : Option Nat)
          (sys' : mempool_sys),
        ndp_mempool_alloc_on_node sys node align = (r, sys') →
          (∀ pl ∈ sys.pools.getD [], pl.offset ≤ pl.size) →
          ∀ pl' ∈ sys'.pools.getD [], pl'.offset ≤ pl'.size) ∧
      ∀ (sys : mempool_sys) (node : Int) (k : Nat) (r : Option Nat)
          (sys' : mempool_sys),
        k ≤ 64 →
        ((sys.pools.getD []).getD node.toNat zero_pool).offset + 2 ^ k ≤
          2 ^ 64 →
        align_up ((sys.pools.getD []).getD node.toNat zero_pool).offset
            (2 ^ k) + size_t_of_int (int_of_size_t sys.pool_size) < 2 ^ 64 →
        ndp_mempool_alloc_on_node sys node (2 ^ k) = (r, sys') →
          ∀ i, ((sys.pools.getD []).getD i zero_pool).offset ≤
            ((sys'.pools.getD []).getD i zero_pool).offset := by
  refine ⟨?_, ?_, ?_⟩
  · intro p node size pl h
    unfold ndp_node_init_thread at h
    split at h
    · simp at h
    · split at h
      · simp at h
      · split at h
        · simp at h
        · simp only [Option.some.injEq] at h
          subst h
          exact ⟨rfl, Nat.zero_le _⟩
  · intro sys node align r sys' h hinv pl' hmem
    simp only [ndp_mempool_alloc_on_node] at h
    split at h
    · injection h with h1 h2
      subst h2
      exact hinv pl' hmem
    · split at h
      · split at h
        · injection h with h1 h2
          subst h2
          exact hinv pl' hmem
        · injection h with h1 h2
          subst h2
          simp only [Option.getD_some] at hmem
          rcases List.mem_or_eq_of_mem_set hmem with hin | rfl
          · exact hinv pl' hin
          · rename_i hcap
            exact Nat.le_of_not_lt hcap
      · split at h
        · injection h with h1 h2
          subst h2
          exact hinv pl' hmem
        · injection h with h1 h2
          subst h2
          simp only [Option.getD_some] at hmem
          rcases List.mem_or_eq_of_mem_set hmem with hin | rfl
          · exact hinv pl' hin
          · rename_i hcap
            exact Nat.le_of_not_lt hcap
  · intro sys node k r sys' hk hov1 hov2 h i
    have hpow : (2 ^ k : Nat) ≠ 0 := (Nat.two_pow_pos k).ne'
    simp only [ndp_mempool_alloc_on_node] at h
    rw [if_neg hpow] at h
    split at h
    · injection h with h1 h2
      subst h2
      exact le_refl _
    · split at h
      · injection h with h1 h2
        subst h2
        exact le_refl _
      · injection h with h1 h2
        subst h2
        simp only [Option.getD_some]
        have hspec :=
          align_up_pow2_spec
            ((sys.pools.getD []).getD node.toNat zero_pool).offset k hk hov1
        have hmod : (align_up
              ((sys.pools.getD []).getD node.toNat zero_pool).offset (2 ^ k) +
                size_t_of_int (int_of_size_t sys.pool_size)) % size_t_mod =
            align_up
              ((sys.pools.getD []).getD node.toNat zero_pool).offset (2 ^ k) +
              size_t_of_int (int_of_size_t sys.pool_size) :=
          Nat.mod_eq_of_lt hov2
        by_cases hi : i = node.toNat
        · subst hi
          by_cases hlen : node.toNat < (sys.pools.getD []).length
          · rw [getD_set_self _ _ _ _ hlen]
            simp only [hmod]
            have := hspec.2.1
            omega
          · rw [getD_set_oob _ _ _ (Nat.le_of_not_lt hlen)]
        · rw [getD_set_ne _ _ _ _ _ (fun hc => hi hc.symm)]

/-- Witness for C8: the creation clause at the successful node-0
bootstrap of `platform_dense2`, and the preservation and monotonicity
clauses at a concrete allocation on `sys_cursor`. -/
theorem pool_cursor_invariant_witness :
    (ndp_node_init_thread platform_dense2 0 1048576 =
          some { base := 4096, size := 1048576, offset := 0, node := 0 } ∧
        (6 : Nat) ≤ 64 ∧
        ((sys_cursor.pools.getD []).getD (0 : Int).toNat zero_pool).offset +
            2 ^ 6 ≤ 2 ^ 64 ∧
        align_up
              ((sys_cursor.pools.getD []).getD (0 : Int).toNat
                zero_pool).offset (2 ^ 6) +
            size_t_of_int (int_of_size_t sys_cursor.pool_size) < 2 ^ 64 ∧
        ndp_mempool_alloc_on_node sys_cursor 0 (2 ^ 6) =
          (some 4160,
            { pools := some [{ base := 4096, size := 1000, offset := 164,
                               node := 0 }],
              num_nodes := 1, pool_size := 100 })) ∧
      (({ base := 4096, size := 1048576, offset := 0, node := 0 } :
            mempool_node).offset = 0 ∧
        ({ base := 4096, size := 1048576, offset := 0, node := 0 } :
            mempool_node).offset ≤
          ({ base := 4096, size := 1048576, offset := 0, node := 0 } :
            mempool_node).size) ∧
      ∀ i, ((sys_cursor.pools.getD []).getD i zero_pool).offset ≤
        ((({ pools := some [{ base := 4096, size := 1000, offset := 164,
                              node := 0 }],
             num_nodes := 1, pool_size := 100 } :
            mempool_sys).pools.getD []).getD i zero_pool).offset :=
  ⟨⟨by decide, by decide, by decide, by decide, by decide⟩,
    pool_cursor_invariant.1 platform_dense2 0 1048576
      { base := 4096, size := 1048576, offset := 0, node := 0 } (by decide),
    pool_cursor_invariant.2.2 sys_cursor 0 6 (some 4160)
      { pools := some [{ base := 4096, size := 1000, offset := 164,
                         node := 0 }],
        num_nodes := 1, pool_size := 100 }
      (by decide) (by decide) (by decide) (by decide)⟩
